import Mathlib

/-
  Verification of the wallet-ledger / deposit-reconciliation / stock-engine
  core of the Iget bundle-selling backend.

  The definitions below are a shallow embedding of the relevant source:
  - src/Server/deposite/deposite.js   (processSuccessfulPayment)
  - src/Server/schema/schema.js       (bundle stock methods, schemas)
  - src/Server/orders/orders.js       (status route, bulk purchase)
  - src/unnamed/part_003              (API order placement with stock)

  The store is focused on the single transaction reference / user / bundle /
  order the claims quantify over; `tx : Option TxRecord` is the result of the
  lookup by reference, `user : Option UserRecord` the result of the lookup by
  the transaction's user id.  MongoDB transactional sessions are modelled by
  working on a draft and discarding it on abortTransaction.
-/

namespace Iget

/-- Transaction status, from the transactionSchema enum in schema.js. -/
inductive TxStatus
  | pending
  | completed
  | failed
  | apiError
  | reward
  deriving DecidableEq, Repr

/-- One deposit Transaction document, restricted to the fields
processSuccessfulPayment reads or writes.  `processing` is the claim flag;
"unset", `null` and `false` in the Mongo document all behave as `false` in
the claim filter, so a single Bool captures them. -/
structure TxRecord where
  id : Nat
  amount : Int
  status : TxStatus
  processing : Bool
  balanceBefore : Option Int
  balanceAfter : Option Int
  deriving DecidableEq, Repr

/-- The user document, restricted to the embedded wallet. -/
structure UserRecord where
  id : Nat
  balance : Int
  txIds : List Nat
  deriving DecidableEq, Repr

/-- The persistent store, focused on one deposit reference and the user it
references. -/
structure DepositStore where
  tx : Option TxRecord
  user : Option UserRecord
  deriving DecidableEq, Repr

/-- Results returned by processSuccessfulPayment
(src/Server/deposite/deposite.js lines 51-167). -/
inductive PayResult
  | success (previousBalance newBalance creditAmount : Int)
  | alreadyProcessed
  | beingProcessed
  | notFound
  | userNotFound
  | invalidAmount
  deriving DecidableEq, Repr

/-- Mongo `$addToSet`: append only when the element is absent
(deposite.js line 150). -/
def addToSet (l : List Nat) (x : Nat) : List Nat :=
  if x ∈ l then l else l ++ [x]

/-- The atomic claim step: `Transaction.findOneAndUpdate` with filter
`reference, status: 'pending', processing not true` setting
`processing: true` (deposite.js lines 28-49).  Returns the updated store
when a document matched, `none` otherwise. -/
def claimStep (s : DepositStore) : Option DepositStore :=
  match s.tx with
  | none => none
  | some tx =>
    if tx.status = .pending ∧ tx.processing = false then
      some { s with tx := some { tx with processing := true } }
    else none

/-- The fallback when the claim matched nothing: `Transaction.findOne` by
reference alone; completed means already processed, any other existing
status means another instance holds the claim (deposite.js lines 51-74). -/
def loserResult (s : DepositStore) : PayResult :=
  match s.tx with
  | none => .notFound
  | some tx => if tx.status = .completed then .alreadyProcessed else .beingProcessed

/-- The winner body (deposite.js lines 76-167), executed with the claim
held, inside the same session as the claim write: load the user, verify the
amount, then update the Transaction (completed, balances recorded,
processing fields cleared) and the User (`$inc` balance, `$addToSet`
transaction id) and commit.  On user-missing or non-positive amount the
code `$unset`s the processing fields and aborts the session; since the
claim write itself was in-session, the committed state is the unclaimed
transaction, modelled by clearing the flag. -/
def winnerFinish (s : DepositStore) : PayResult × DepositStore :=
  match s.tx with
  | none => (.notFound, s)
  | some tx =>
    match s.user with
    | none => (.userNotFound, { s with tx := some { tx with processing := false } })
    | some u =>
      if tx.amount ≤ 0 then
        (.invalidAmount, { s with tx := some { tx with processing := false } })
      else
        (.success u.balance (u.balance + tx.amount) tx.amount,
         { tx := some { tx with
              status := .completed
              processing := false
              balanceBefore := some u.balance
              balanceAfter := some (u.balance + tx.amount) },
           user := some { u with
              balance := u.balance + tx.amount
              txIds := addToSet u.txIds tx.id } })

/-- processSuccessfulPayment (deposite.js lines 20-195): attempt the atomic
claim; the winner runs the credit body, a loser reports the observed state. -/
def processSuccessfulPayment (s : DepositStore) : PayResult × DepositStore :=
  match claimStep s with
  | some s' => winnerFinish s'
  | none => (loserResult s, s)

/-- The completed Transaction document written by the winner. -/
def completedTx (tx0 : TxRecord) (b0 : Int) : TxRecord :=
  { tx0 with
    status := .completed
    processing := false
    balanceBefore := some b0
    balanceAfter := some (b0 + tx0.amount) }

/-- The credited user document written by the winner. -/
def creditedUser (u0 : UserRecord) (tx0 : TxRecord) : UserRecord :=
  { u0 with
    balance := u0.balance + tx0.amount
    txIds := addToSet u0.txIds tx0.id }

/-- Computation of the happy path: pending, unclaimed, positive amount, user
present. -/
theorem processPayment_happy (tx0 : TxRecord) (u0 : UserRecord)
    (hst : tx0.status = .pending) (hpr : tx0.processing = false)
    (ham : 0 < tx0.amount) :
    processSuccessfulPayment { tx := some tx0, user := some u0 }
      = (.success u0.balance (u0.balance + tx0.amount) tx0.amount,
         { tx := some (completedTx tx0 u0.balance),
           user := some (creditedUser u0 tx0) }) := by
  simp [processSuccessfulPayment, claimStep, winnerFinish, hst, hpr,
    not_le.mpr ham, completedTx, creditedUser]

theorem mem_addToSet (l : List Nat) (x : Nat) : x ∈ addToSet l x := by
  by_cases h : x ∈ l <;> simp [addToSet, h]

/-- C2: the winner of a pending, unclaimed, positive-amount deposit whose user
exists completes the Transaction with balanceBefore the wallet balance at
processing time and balanceAfter = balanceBefore + amount, credits the wallet
by exactly the amount, records the transaction id in wallet.transactions, and
leaves no processing claim. -/
theorem deposit_winner_postconditions (tx0 : TxRecord) (u0 : UserRecord)
    (hst : tx0.status = .pending) (hpr : tx0.processing = false)
    (ham : 0 < tx0.amount) :
    ∃ tx1 u1,
      (processSuccessfulPayment { tx := some tx0, user := some u0 }).2.tx = some tx1 ∧
      (processSuccessfulPayment { tx := some tx0, user := some u0 }).2.user = some u1 ∧
      (processSuccessfulPayment { tx := some tx0, user := some u0 }).1
        = .success u0.balance (u0.balance + tx0.amount) tx0.amount ∧
      tx1.status = .completed ∧
      tx1.processing = false ∧
      tx1.balanceBefore = some u0.balance ∧
      tx1.balanceAfter = some (u0.balance + tx0.amount) ∧
      u1.balance = u0.balance + tx0.amount ∧
      tx0.id ∈ u1.txIds ∧
      (tx0.id ∉ u0.txIds → u1.txIds = u0.txIds ++ [tx0.id]) := by
  refine ⟨completedTx tx0 u0.balance, creditedUser u0 tx0, ?_, ?_, ?_,
    rfl, rfl, rfl, rfl, rfl, mem_addToSet u0.txIds tx0.id, fun h => ?_⟩
  · rw [processPayment_happy tx0 u0 hst hpr ham]
  · rw [processPayment_happy tx0 u0 hst hpr ham]
  · rw [processPayment_happy tx0 u0 hst hpr ham]
  · simp [creditedUser, addToSet, h]

/-- Closed instance of deposit_winner_postconditions. -/
theorem deposit_winner_postconditions_witness :
    ∃ tx1 u1,
      (processSuccessfulPayment
        { tx := some ⟨7, 5, .pending, false, none, none⟩,
          user := some ⟨1, 100, []⟩ }).2.tx = some tx1 ∧
      (processSuccessfulPayment
        { tx := some ⟨7, 5, .pending, false, none, none⟩,
          user := some ⟨1, 100, []⟩ }).2.user = some u1 ∧
      (processSuccessfulPayment
        { tx := some ⟨7, 5, .pending, false, none, none⟩,
          user := some ⟨1, 100, []⟩ }).1 = .success 100 (100 + 5) 5 ∧
      tx1.status = .completed ∧
      tx1.processing = false ∧
      tx1.balanceBefore = some 100 ∧
      tx1.balanceAfter = some (100 + 5) ∧
      u1.balance = 100 + 5 ∧
      (7 : Nat) ∈ u1.txIds ∧
      ((7 : Nat) ∉ ([] : List Nat) → u1.txIds = ([] : List Nat) ++ [7]) :=
  deposit_winner_postconditions ⟨7, 5, .pending, false, none, none⟩ ⟨1, 100, []⟩
    rfl rfl (by decide)

/-- C3: after a first call completes a deposit, a second sequential call with
the same reference performs no state change and reports the idempotent
already-processed success. -/
theorem deposit_second_call_idempotent (tx0 : TxRecord) (u0 : UserRecord)
    (hst : tx0.status = .pending) (hpr : tx0.processing = false)
    (ham : 0 < tx0.amount) :
    processSuccessfulPayment
        (processSuccessfulPayment { tx := some tx0, user := some u0 }).2
      = (.alreadyProcessed,
         (processSuccessfulPayment { tx := some tx0, user := some u0 }).2) := by
  rw [processPayment_happy tx0 u0 hst hpr ham]
  simp [processSuccessfulPayment, claimStep, loserResult, completedTx]

/-- Closed instance of deposit_second_call_idempotent. -/
theorem deposit_second_call_idempotent_witness :
    processSuccessfulPayment
        (processSuccessfulPayment
          { tx := some ⟨7, 5, .pending, false, none, none⟩,
            user := some ⟨1, 100, []⟩ }).2
      = (.alreadyProcessed,
         (processSuccessfulPayment
          { tx := some ⟨7, 5, .pending, false, none, none⟩,
            user := some ⟨1, 100, []⟩ }).2) :=
  deposit_second_call_idempotent ⟨7, 5, .pending, false, none, none⟩ ⟨1, 100, []⟩
    rfl rfl (by decide)

/-- C8: on a pending, unclaimed deposit, if the transaction amount is
non-positive or the user record is missing, processSuccessfulPayment returns
a failure, the store is exactly as before the call (no wallet credited), and
the Transaction is still pending with no processing claim held, so a later
attempt can retry the reference. -/
theorem deposit_failure_releases_claim (tx0 : TxRecord) (u? : Option UserRecord)
    (hst : tx0.status = .pending) (hpr : tx0.processing = false)
    (hbad : u? = none ∨ tx0.amount ≤ 0) :
    ((processSuccessfulPayment { tx := some tx0, user := u? }).1 = .userNotFound ∨
     (processSuccessfulPayment { tx := some tx0, user := u? }).1 = .invalidAmount) ∧
    (processSuccessfulPayment { tx := some tx0, user := u? }).2
      = { tx := some tx0, user := u? } := by
  obtain ⟨i, amt, st, pr, bb, ba⟩ := tx0
  dsimp only at hst hpr hbad
  subst hst
  subst hpr
  rcases hbad with h | h
  · subst h
    exact ⟨Or.inl (by simp [processSuccessfulPayment, claimStep, winnerFinish]),
           by simp [processSuccessfulPayment, claimStep, winnerFinish]⟩
  · cases u? with
    | none =>
      exact ⟨Or.inl (by simp [processSuccessfulPayment, claimStep, winnerFinish]),
             by simp [processSuccessfulPayment, claimStep, winnerFinish]⟩
    | some u =>
      exact ⟨Or.inr (by simp [processSuccessfulPayment, claimStep, winnerFinish, h]),
             by simp [processSuccessfulPayment, claimStep, winnerFinish, h]⟩

/-- Closed instance of deposit_failure_releases_claim, with amount 0. -/
theorem deposit_failure_releases_claim_witness :
    ((processSuccessfulPayment
        { tx := some ⟨7, 0, .pending, false, none, none⟩,
          user := some ⟨1, 100, []⟩ }).1 = .userNotFound ∨
     (processSuccessfulPayment
        { tx := some ⟨7, 0, .pending, false, none, none⟩,
          user := some ⟨1, 100, []⟩ }).1 = .invalidAmount) ∧
    (processSuccessfulPayment
        { tx := some ⟨7, 0, .pending, false, none, none⟩,
          user := some ⟨1, 100, []⟩ }).2
      = { tx := some ⟨7, 0, .pending, false, none, none⟩,
          user := some ⟨1, 100, []⟩ } :=
  deposit_failure_releases_claim ⟨7, 0, .pending, false, none, none⟩
    (some ⟨1, 100, []⟩) rfl rfl (Or.inr (by decide))

/-
  Concurrency model.  Webhook, redirect-verify, polling-verify and admin
  sweep all run processSuccessfulPayment concurrently against the shared
  store; each store operation is atomic and the interleaving is arbitrary.
  A caller is split at its suspension point: the atomic claim
  (`claimStep`, deposite.js lines 28-49) and then, for the winner, the
  committed credit body (`winnerFinish`).  Losers finish in a single step.
-/

/-- The control state of one concurrent caller of processSuccessfulPayment. -/
inductive CallerState
  | idle
  | claimed
  | done (r : PayResult)
  deriving DecidableEq, Repr

/-- Whether a caller has returned. -/
def CallerState.isDone : CallerState → Bool
  | .done _ => true
  | _ => false

/-- One atomic step of a single caller against the shared store. -/
def callerStep (s : DepositStore) (c : CallerState) : DepositStore × CallerState :=
  match c with
  | .idle =>
    match claimStep s with
    | some s' => (s', .claimed)
    | none => (s, .done (loserResult s))
  | .claimed => ((winnerFinish s).2, .done (winnerFinish s).1)
  | .done r => (s, .done r)

/-- The whole system: the shared store plus n concurrent callers. -/
structure SysState (n : Nat) where
  store : DepositStore
  callers : Fin n → CallerState

/-- Scheduler step: caller i performs its next atomic action. -/
def sysStep {n : Nat} (σ : SysState n) (i : Fin n) : SysState n :=
  { store := (callerStep σ.store (σ.callers i)).1
    callers := Function.update σ.callers i (callerStep σ.store (σ.callers i)).2 }

/-- Run an arbitrary interleaving, given as the list of caller indices in
the order the scheduler picks them. -/
def sysRun {n : Nat} (σ : SysState n) (sched : List (Fin n)) : SysState n :=
  sched.foldl sysStep σ

/-- Initial system: the pending deposit and its user in the store, every
caller about to enter processSuccessfulPayment. -/
def initSys (n : Nat) (tx0 : TxRecord) (u0 : UserRecord) : SysState n :=
  { store := { tx := some tx0, user := some u0 }
    callers := fun _ => .idle }

/-- Store before anyone claimed. -/
def storeA (tx0 : TxRecord) (u0 : UserRecord) : DepositStore :=
  { tx := some tx0, user := some u0 }

/-- Store while the winner holds the processing claim. -/
def storeB (tx0 : TxRecord) (u0 : UserRecord) : DepositStore :=
  { tx := some { tx0 with processing := true }, user := some u0 }

/-- Store after the winner committed the credit. -/
def storeC (tx0 : TxRecord) (u0 : UserRecord) : DepositStore :=
  { tx := some (completedTx tx0 u0.balance), user := some (creditedUser u0 tx0) }

/-- The winner's return value. -/
def winResult (tx0 : TxRecord) (u0 : UserRecord) : PayResult :=
  .success u0.balance (u0.balance + tx0.amount) tx0.amount

section Concurrent

variable {n : Nat} (tx0 : TxRecord) (u0 : UserRecord)

theorem claim_storeA (hst : tx0.status = .pending) (hpr : tx0.processing = false) :
    claimStep (storeA tx0 u0) = some (storeB tx0 u0) := by
  simp [claimStep, storeA, storeB, hst, hpr]

theorem claim_storeB : claimStep (storeB tx0 u0) = none := by
  simp [claimStep, storeB]

theorem loser_storeB (hst : tx0.status = .pending) :
    loserResult (storeB tx0 u0) = .beingProcessed := by
  simp [loserResult, storeB, hst]

theorem winner_storeB (ham : 0 < tx0.amount) :
    winnerFinish (storeB tx0 u0) = (winResult tx0 u0, storeC tx0 u0) := by
  simp [winnerFinish, storeB, storeC, winResult, completedTx, creditedUser,
    not_le.mpr ham]

theorem claim_storeC : claimStep (storeC tx0 u0) = none := by
  simp [claimStep, storeC, completedTx]

theorem loser_storeC : loserResult (storeC tx0 u0) = .alreadyProcessed := by
  simp [loserResult, storeC, completedTx]

/-- Phase invariant of the concurrent reconciliation system: either nobody
has claimed yet, or exactly one caller holds the claim, or the credit has
been committed by exactly one caller. -/
def ConcInv (tx0 : TxRecord) (u0 : UserRecord) (σ : SysState n) : Prop :=
  (σ.store = storeA tx0 u0 ∧ ∀ i, σ.callers i = .idle)
  ∨ (σ.store = storeB tx0 u0 ∧ ∃ j, σ.callers j = .claimed ∧
      ∀ k, k ≠ j → σ.callers k = .idle ∨ σ.callers k = .done .beingProcessed)
  ∨ (σ.store = storeC tx0 u0 ∧ ∃ j, σ.callers j = .done (winResult tx0 u0) ∧
      ∀ k, k ≠ j → σ.callers k = .idle ∨ σ.callers k = .done .beingProcessed
        ∨ σ.callers k = .done .alreadyProcessed)

/-- A step of a caller that has already returned changes nothing. -/
theorem sysStep_done {n : Nat} (σ : SysState n) (i : Fin n) (r : PayResult)
    (h : σ.callers i = .done r) : sysStep σ i = σ := by
  have hcs : callerStep σ.store (σ.callers i) = (σ.store, σ.callers i) := by
    rw [h]
    rfl
  simp [sysStep, hcs, Function.update_eq_self]

theorem concInv_step (hst : tx0.status = .pending) (hpr : tx0.processing = false)
    (ham : 0 < tx0.amount) (σ : SysState n) (i : Fin n)
    (h : ConcInv tx0 u0 σ) : ConcInv tx0 u0 (sysStep σ i) := by
  rcases h with ⟨hs, hc⟩ | ⟨hs, j, hj, hk⟩ | ⟨hs, j, hj, hk⟩
  · -- phase A: caller i claims and the system enters phase B
    have hstep : callerStep σ.store (σ.callers i) = (storeB tx0 u0, .claimed) := by
      rw [hs, hc i]
      simp [callerStep, claim_storeA tx0 u0 hst hpr]
    refine Or.inr (Or.inl ⟨by simp [sysStep, hstep], i, ?_, fun k hki => ?_⟩)
    · simp [sysStep, hstep]
    · simp [sysStep, hstep, Function.update_noteq hki]
      exact Or.inl (hc k)
  · -- phase B
    by_cases hij : i = j
    · -- the claim holder commits and the system enters phase C
      subst hij
      have hstep : callerStep σ.store (σ.callers i)
          = (storeC tx0 u0, .done (winResult tx0 u0)) := by
        rw [hs, hj]
        simp [callerStep, winner_storeB tx0 u0 ham]
      refine Or.inr (Or.inr ⟨by simp [sysStep, hstep], i, ?_, fun k hki => ?_⟩)
      · simp [sysStep, hstep]
      · simp [sysStep, hstep, Function.update_noteq hki]
        rcases hk k hki with h1 | h1
        · exact Or.inl h1
        · exact Or.inr (Or.inl h1)
    · -- some other caller loses and reports being-processed
      have hji : j ≠ i := fun hh => hij hh.symm
      rcases hk i hij with h1 | h1
      · have hstep : callerStep σ.store (σ.callers i)
            = (storeB tx0 u0, .done .beingProcessed) := by
          rw [hs, h1]
          simp [callerStep, claim_storeB, loser_storeB tx0 u0 hst]
        refine Or.inr (Or.inl ⟨by simp [sysStep, hstep], j, ?_, fun k hkj => ?_⟩)
        · simp [sysStep, hstep, Function.update_noteq hji, hj]
        · by_cases hki : k = i
          · subst hki
            simp [sysStep, hstep]
          · simp [sysStep, hstep, Function.update_noteq hki]
            exact hk k hkj
      · rw [sysStep_done σ i _ h1]
        exact Or.inr (Or.inl ⟨hs, j, hj, hk⟩)
  · -- phase C
    by_cases hij : i = j
    · subst hij
      rw [sysStep_done σ i _ hj]
      exact Or.inr (Or.inr ⟨hs, i, hj, hk⟩)
    · have hji : j ≠ i := fun hh => hij hh.symm
      rcases hk i hij with h1 | h1 | h1
      · -- a late caller observes the completed transaction
        have hstep : callerStep σ.store (σ.callers i)
            = (storeC tx0 u0, .done .alreadyProcessed) := by
          rw [hs, h1]
          simp [callerStep, claim_storeC, loser_storeC]
        refine Or.inr (Or.inr ⟨by simp [sysStep, hstep], j, ?_, fun k hkj => ?_⟩)
        · simp [sysStep, hstep, Function.update_noteq hji, hj]
        · by_cases hki : k = i
          · subst hki
            simp [sysStep, hstep]
          · simp [sysStep, hstep, Function.update_noteq hki]
            exact hk k hkj
      · rw [sysStep_done σ i _ h1]
        exact Or.inr (Or.inr ⟨hs, j, hj, hk⟩)
      · rw [sysStep_done σ i _ h1]
        exact Or.inr (Or.inr ⟨hs, j, hj, hk⟩)

theorem concInv_run (hst : tx0.status = .pending) (hpr : tx0.processing = false)
    (ham : 0 < tx0.amount) (σ : SysState n) (sched : List (Fin n))
    (h : ConcInv tx0 u0 σ) : ConcInv tx0 u0 (sysRun σ sched) := by
  induction sched generalizing σ with
  | nil => exact h
  | cons i rest ih =>
    exact ih (sysStep σ i) (concInv_step tx0 u0 hst hpr ham σ i h)

end Concurrent

/-- C1: when N concurrent calls to processSuccessfulPayment race on the same
pending deposit reference (arbitrary interleaving given by `sched`), and all
of them have returned, then the store holds the transaction completed with
the wallet credited exactly once by the deposit amount, exactly one caller
returned the successful credit, and every other caller returned
already-processed or being-processed. -/
theorem deposit_concurrent_exactly_one_credit (n : Nat) (hn : 0 < n)
    (tx0 : TxRecord) (u0 : UserRecord)
    (hst : tx0.status = .pending) (hpr : tx0.processing = false)
    (ham : 0 < tx0.amount) (sched : List (Fin n))
    (hdone : ∀ i, ((sysRun (initSys n tx0 u0) sched).callers i).isDone = true) :
    (sysRun (initSys n tx0 u0) sched).store.tx = some (completedTx tx0 u0.balance)
    ∧ (sysRun (initSys n tx0 u0) sched).store.user = some (creditedUser u0 tx0)
    ∧ (∃! j : Fin n,
        (sysRun (initSys n tx0 u0) sched).callers j = .done (winResult tx0 u0))
    ∧ ∀ k : Fin n,
        (sysRun (initSys n tx0 u0) sched).callers k ≠ .done (winResult tx0 u0) →
        (sysRun (initSys n tx0 u0) sched).callers k = .done .alreadyProcessed
        ∨ (sysRun (initSys n tx0 u0) sched).callers k = .done .beingProcessed := by
  have hinit : ConcInv tx0 u0 (initSys n tx0 u0) :=
    Or.inl ⟨rfl, fun _ => rfl⟩
  have hinv := concInv_run tx0 u0 hst hpr ham (initSys n tx0 u0) sched hinit
  rcases hinv with ⟨hs, hc⟩ | ⟨hs, j, hj, hk⟩ | ⟨hs, j, hj, hk⟩
  · exact absurd (hdone ⟨0, hn⟩) (by simp [hc ⟨0, hn⟩, CallerState.isDone])
  · exact absurd (hdone j) (by simp [hj, CallerState.isDone])
  · refine ⟨by simp [hs, storeC], by simp [hs, storeC], ⟨j, hj, fun y hy => ?_⟩,
      fun k hkw => ?_⟩
    · by_contra hyj
      rcases hk y hyj with h1 | h1 | h1 <;> rw [hy] at h1 <;>
        simp [winResult] at h1
    · have hkj : k ≠ j := fun hh => hkw (hh ▸ hj)
      rcases hk k hkj with h1 | h1 | h1
      · exact absurd (hdone k) (by simp [h1, CallerState.isDone])
      · exact Or.inr h1
      · exact Or.inl h1

/-- Closed instance of deposit_concurrent_exactly_one_credit with two
callers: the schedule lets caller 0 claim and commit, then caller 1 observes
the completed transaction. -/
theorem deposit_concurrent_exactly_one_credit_witness :
    (sysRun (initSys 2 ⟨7, 5, .pending, false, none, none⟩ ⟨1, 100, []⟩)
        [0, 0, 1]).store.tx
      = some (completedTx ⟨7, 5, .pending, false, none, none⟩ 100)
    ∧ (sysRun (initSys 2 ⟨7, 5, .pending, false, none, none⟩ ⟨1, 100, []⟩)
        [0, 0, 1]).store.user
      = some (creditedUser ⟨1, 100, []⟩ ⟨7, 5, .pending, false, none, none⟩)
    ∧ (∃! j : Fin 2,
        (sysRun (initSys 2 ⟨7, 5, .pending, false, none, none⟩ ⟨1, 100, []⟩)
          [0, 0, 1]).callers j
        = .done (winResult ⟨7, 5, .pending, false, none, none⟩ ⟨1, 100, []⟩))
    ∧ ∀ k : Fin 2,
        (sysRun (initSys 2 ⟨7, 5, .pending, false, none, none⟩ ⟨1, 100, []⟩)
          [0, 0, 1]).callers k
          ≠ .done (winResult ⟨7, 5, .pending, false, none, none⟩ ⟨1, 100, []⟩) →
        (sysRun (initSys 2 ⟨7, 5, .pending, false, none, none⟩ ⟨1, 100, []⟩)
          [0, 0, 1]).callers k = .done .alreadyProcessed
        ∨ (sysRun (initSys 2 ⟨7, 5, .pending, false, none, none⟩ ⟨1, 100, []⟩)
          [0, 0, 1]).callers k = .done .beingProcessed :=
  deposit_concurrent_exactly_one_credit 2 (by decide)
    ⟨7, 5, .pending, false, none, none⟩ ⟨1, 100, []⟩ rfl rfl (by decide)
    [0, 0, 1] (by decide)

/-
  Bundle stock model, from bundleSchema in src/Server/schema/schema.js.
  Quantities are JS numbers used as integer unit counts; audit-only fields
  (restockHistory, timestamps, actor ids, reasons) are omitted.
-/

/-- stockUnits subdocument (schema.js lines 276-298). -/
structure StockUnits where
  available : Int
  initial : Int
  reserved : Int
  sold : Int
  lowStockThreshold : Int
  deriving DecidableEq, Repr

/-- Derived stockStatus flags (schema.js lines 302-311). -/
structure StockStatus where
  isOutOfStock : Bool
  isLowStock : Bool
  autoOutOfStock : Bool
  deriving DecidableEq, Repr

/-- A bundle document, restricted to the stock fields. -/
structure Bundle where
  price : Int
  isActive : Bool
  isInStock : Bool
  stockUnits : StockUnits
  stockStatus : StockStatus
  deriving DecidableEq, Repr

/-- bundleSchema.methods.updateStockStatus (schema.js lines 403-428):
re-derives isInStock / isOutOfStock / isLowStock from available units. -/
def updateStockStatus (b : Bundle) : Bundle :=
  let b1 :=
    if b.stockUnits.available = 0 then
      { b with
        isInStock := false,
        stockStatus := { b.stockStatus with
          isOutOfStock := true,
          autoOutOfStock := true } }
    else
      { b with
        isInStock := true,
        stockStatus := { b.stockStatus with
          isOutOfStock := false,
          autoOutOfStock := false } }
  { b1 with stockStatus := { b1.stockStatus with
      isLowStock :=
        decide (0 < b.stockUnits.available
          ∧ b.stockUnits.available ≤ b.stockUnits.lowStockThreshold) } }

/-- bundleSchema.methods.reserveStock (schema.js lines 356-371): fails
(throws) without mutation when available < quantity, otherwise moves
quantity units available → reserved and re-derives the status flags. -/
def reserveStock (b : Bundle) (quantity : Int) : Option Bundle :=
  if b.stockUnits.available < quantity then none
  else some (updateStockStatus
    { b with stockUnits := { b.stockUnits with
        available := b.stockUnits.available - quantity
        reserved := b.stockUnits.reserved + quantity } })

/-- bundleSchema.methods.confirmReservation (schema.js lines 374-386): fails
(throws) when reserved < quantity, otherwise moves quantity units
reserved → sold.  The source does not call updateStockStatus here. -/
def confirmReservation (b : Bundle) (quantity : Int) : Option Bundle :=
  if b.stockUnits.reserved < quantity then none
  else some
    { b with stockUnits := { b.stockUnits with
        reserved := b.stockUnits.reserved - quantity
        sold := b.stockUnits.sold + quantity } }

/-- bundleSchema.methods.releaseReservation (schema.js lines 389-400):
always succeeds; available += quantity, reserved := max 0 (reserved -
quantity), then re-derives the status flags. -/
def releaseReservation (b : Bundle) (quantity : Int) : Bundle :=
  updateStockStatus
    { b with stockUnits := { b.stockUnits with
        available := b.stockUnits.available + quantity
        reserved := max 0 (b.stockUnits.reserved - quantity) } }

/-- bundleSchema.methods.restock (schema.js lines 431-469): fails (throws)
when units ≤ 0, otherwise available += units,
initial := max initial available, and the status flags are re-derived. -/
def restock (b : Bundle) (units : Int) : Option Bundle :=
  if units ≤ 0 then none
  else some (updateStockStatus
    { b with stockUnits := { b.stockUnits with
        available := b.stockUnits.available + units
        initial := max b.stockUnits.initial (b.stockUnits.available + units) } })

/-- bundleSchema.methods.adjustStock (schema.js lines 472-510): fails when
the adjustment would take available below 0; positive adjustments delegate
to restock, non-positive ones update available and re-derive the flags. -/
def adjustStock (b : Bundle) (adjustment : Int) : Option Bundle :=
  if b.stockUnits.available + adjustment < 0 then none
  else if 0 < adjustment then restock b adjustment
  else some (updateStockStatus
    { b with stockUnits := { b.stockUnits with
        available := b.stockUnits.available + adjustment } })

/-- The stock operations named by the spec's stock invariant. -/
inductive StockOp
  | reserve (quantity : Int)
  | confirm (quantity : Int)
  | release (quantity : Int)
  | restock (units : Int)
  deriving DecidableEq, Repr

/-- The unit-count argument of a stock operation. -/
def StockOp.qty : StockOp → Int
  | .reserve q => q
  | .confirm q => q
  | .release q => q
  | .restock u => u

/-- Run one stock operation; a thrown operation leaves the document
unchanged (the methods validate before mutating). -/
def applyOp (b : Bundle) : StockOp → Bundle
  | .reserve q => (reserveStock b q).getD b
  | .confirm q => (confirmReservation b q).getD b
  | .release q => releaseReservation b q
  | .restock u => (restock b u).getD b

/-- Run a sequence of stock operations. -/
def applyOps (b : Bundle) (ops : List StockOp) : Bundle :=
  ops.foldl applyOp b

/-- available + reserved + sold. -/
def stockSum (b : Bundle) : Int :=
  b.stockUnits.available + b.stockUnits.reserved + b.stockUnits.sold

theorem updateStockStatus_stockUnits (b : Bundle) :
    (updateStockStatus b).stockUnits = b.stockUnits := by
  by_cases h : b.stockUnits.available = 0 <;> simp [updateStockStatus, h]

theorem applyOp_available_nonneg (b : Bundle) (op : StockOp)
    (hq : 0 ≤ op.qty) (hav : 0 ≤ b.stockUnits.available) :
    0 ≤ (applyOp b op).stockUnits.available := by
  cases op with
  | reserve q =>
    by_cases h : b.stockUnits.available < q
    · simpa [applyOp, reserveStock, h] using hav
    · simp [applyOp, reserveStock, h, updateStockStatus_stockUnits]
      omega
  | confirm q =>
    by_cases h : b.stockUnits.reserved < q <;>
      simpa [applyOp, confirmReservation, h] using hav
  | release q =>
    simp [applyOp, releaseReservation, updateStockStatus_stockUnits]
    simp only [StockOp.qty] at hq
    omega
  | restock u =>
    by_cases h : u ≤ 0
    · simpa [applyOp, restock, h] using hav
    · simp [applyOp, restock, h, updateStockStatus_stockUnits]
      simp only [StockOp.qty] at hq
      omega

/-- C7, amended: across any sequence of reserve/confirm/release/restock
operations with non-negative unit counts, available never becomes negative;
reserve and confirm never change available + reserved + sold, restock
increases it by exactly the restocked units when it succeeds, but release
increases it by max 0 (quantity - reserved), which is zero only when at
least `quantity` units were actually reserved. -/
theorem stock_ops_invariants (b : Bundle) (ops : List StockOp)
    (hav : 0 ≤ b.stockUnits.available)
    (hops : ∀ op ∈ ops, 0 ≤ op.qty) :
    0 ≤ (applyOps b ops).stockUnits.available
    ∧ (∀ c : Bundle, ∀ q : Int,
        stockSum (applyOp c (.reserve q)) = stockSum c
        ∧ stockSum (applyOp c (.confirm q)) = stockSum c
        ∧ stockSum (applyOp c (.release q))
            = stockSum c + max 0 (q - c.stockUnits.reserved)
        ∧ stockSum (applyOp c (.restock q))
            = stockSum c + (if 0 < q then q else 0)) := by
  constructor
  · induction ops generalizing b with
    | nil => exact hav
    | cons op rest ih =>
      exact ih (applyOp b op)
        (applyOp_available_nonneg b op (hops op (List.mem_cons_self op rest)) hav)
        (fun o ho => hops o (List.mem_cons_of_mem op ho))
  · intro c q
    refine ⟨?_, ?_, ?_, ?_⟩
    · by_cases h : c.stockUnits.available < q
      · simp [applyOp, reserveStock, h]
      · simp [stockSum, applyOp, reserveStock, h, updateStockStatus_stockUnits]
    · by_cases h : c.stockUnits.reserved < q
      · simp [applyOp, confirmReservation, h]
      · simp [stockSum, applyOp, confirmReservation, h]
        ring
    · simp [stockSum, applyOp, releaseReservation, updateStockStatus_stockUnits]
      omega
    · by_cases h : 0 < q
      · simp [stockSum, applyOp, restock, not_le.mpr h, h,
          updateStockStatus_stockUnits]
        ring
      · simp [stockSum, applyOp, restock, not_lt.mp h, h]

/-- Closed instance of stock_ops_invariants. -/
theorem stock_ops_invariants_witness :
    (0 ≤ (applyOps
        ⟨10, true, true, ⟨5, 5, 0, 0, 10⟩, ⟨false, true, false⟩⟩
        [.reserve 2, .confirm 1, .release 1, .restock 3]).stockUnits.available)
    ∧ (∀ c : Bundle, ∀ q : Int,
        stockSum (applyOp c (.reserve q)) = stockSum c
        ∧ stockSum (applyOp c (.confirm q)) = stockSum c
        ∧ stockSum (applyOp c (.release q))
            = stockSum c + max 0 (q - c.stockUnits.reserved)
        ∧ stockSum (applyOp c (.restock q))
            = stockSum c + (if 0 < q then q else 0)) :=
  stock_ops_invariants ⟨10, true, true, ⟨5, 5, 0, 0, 10⟩, ⟨false, true, false⟩⟩
    [.reserve 2, .confirm 1, .release 1, .restock 3] (by decide) (by decide)

/-- C7, counterexample to the claim as stated: releasing 1 unit on a bundle
with nothing reserved changes available + reserved + sold (it increases it
by 1), so release does not always leave the sum unchanged. -/
theorem release_changes_stock_sum :
    stockSum (applyOp ⟨10, true, true, ⟨0, 0, 0, 0, 10⟩, ⟨true, false, true⟩⟩
        (.release 1))
      ≠ stockSum ⟨10, true, true, ⟨0, 0, 0, 0, 10⟩, ⟨true, false, true⟩⟩ := by
  decide

/-- The spec's derivation rule for the status flags:
isOutOfStock exactly when no units are available, isLowStock exactly when
0 < available ≤ lowStockThreshold. -/
def flagsConsistent (b : Bundle) : Prop :=
  (b.stockStatus.isOutOfStock = true ↔ b.stockUnits.available = 0)
  ∧ (b.stockStatus.isLowStock = true ↔
      0 < b.stockUnits.available
      ∧ b.stockUnits.available ≤ b.stockUnits.lowStockThreshold)

theorem updateStockStatus_flagsConsistent (b : Bundle) :
    flagsConsistent (updateStockStatus b) := by
  by_cases h : b.stockUnits.available = 0 <;>
    simp [flagsConsistent, updateStockStatus, h]

/-- PUT /api/bundles/stock/:id/in-stock (src/Server/bundleRoutes/bundle.js
lines 1008-1034): replaces stockStatus with isOutOfStock := false and
isLowStock := available ≤ lowStockThreshold, without touching stockUnits.
Since `stockUnits.available` is not modified, the pre-save hook does not
re-derive the flags. -/
def markInStock (b : Bundle) : Bundle :=
  { b with
    isInStock := true,
    stockStatus :=
      { isOutOfStock := false,
        isLowStock :=
          decide (b.stockUnits.available ≤ b.stockUnits.lowStockThreshold),
        autoOutOfStock := false } }

/-- C10, amended: every stock-units operation keeps the derived flags
consistent with available (reserve, release and restock re-derive them via
updateStockStatus; confirmReservation does not re-derive them but leaves
available unchanged, so consistency is preserved). -/
theorem stock_ops_keep_flags_consistent (b : Bundle) (op : StockOp)
    (h : flagsConsistent b) : flagsConsistent (applyOp b op) := by
  cases op with
  | reserve q =>
    by_cases hq : b.stockUnits.available < q
    · simpa [applyOp, reserveStock, hq] using h
    · simp only [applyOp, reserveStock, hq, if_false, Option.getD_some, ite_false]
      exact updateStockStatus_flagsConsistent _
  | confirm q =>
    by_cases hq : b.stockUnits.reserved < q
    · simpa [applyOp, confirmReservation, hq] using h
    · simpa [applyOp, confirmReservation, hq, flagsConsistent] using h
  | release q =>
    exact updateStockStatus_flagsConsistent _
  | restock u =>
    by_cases hu : u ≤ 0
    · simpa [applyOp, restock, hu] using h
    · simp only [applyOp, restock, hu, if_false, Option.getD_some, ite_false]
      exact updateStockStatus_flagsConsistent _

/-- Closed instance of stock_ops_keep_flags_consistent. -/
theorem stock_ops_keep_flags_consistent_witness :
    flagsConsistent (applyOp
      ⟨10, true, true, ⟨5, 5, 0, 0, 10⟩, ⟨false, true, false⟩⟩ (.reserve 5)) :=
  stock_ops_keep_flags_consistent
    ⟨10, true, true, ⟨5, 5, 0, 0, 10⟩, ⟨false, true, false⟩⟩ (.reserve 5)
    (by constructor <;> constructor <;> intro h <;> simp_all)

/-- C10, counterexample to the claim as stated: the exposed mark-in-stock
route applied to a bundle with zero available units (whose flags are
consistent) produces isOutOfStock = false with available = 0, and its
isLowStock derivation drops the 0 < available condition, so the resulting
flags are inconsistent with available. -/
theorem mark_in_stock_inconsistent_flags :
    flagsConsistent ⟨10, true, false, ⟨0, 0, 0, 0, 10⟩, ⟨true, false, true⟩⟩
    ∧ ¬ flagsConsistent
        (markInStock ⟨10, true, false, ⟨0, 0, 0, 0, 10⟩, ⟨true, false, true⟩⟩) := by
  constructor
  · constructor <;> constructor <;> intro h <;> simp_all
  · intro hc
    have h1 := hc.1.mpr rfl
    simp [markInStock] at h1

/-
  Order lifecycle models, from src/Server/orders/orders.js and
  src/unnamed/part_003.
-/

/-- Order status, from the orderSchema enum in schema.js. -/
inductive OrderStatus
  | initiated
  | pending
  | processing
  | completed
  | failed
  | refunded
  | apiError
  deriving DecidableEq, Repr

/-- Ledger entry types, from the transactionSchema enum in schema.js. -/
inductive TxType
  | deposit
  | withdrawal
  | purchase
  | refund
  | adjustment
  | debit
  | credit
  | reward
  deriving DecidableEq, Repr

/-- A wallet-affecting Transaction document as created by the order routes,
restricted to the ledger fields. -/
structure LedgerEntry where
  txType : TxType
  amount : Int
  balanceBefore : Int
  balanceAfter : Int
  deriving DecidableEq, Repr

/-- An order document, restricted to the fields the status route touches. -/
structure OrderRec where
  id : Nat
  price : Int
  status : OrderStatus
  completedAt : Option Nat
  deriving DecidableEq, Repr

/-- Store for the Editor status route: the targeted order, its user, the
bundle whose units the order reserved, and the Transactions collection. -/
structure OrderStore where
  order : OrderRec
  user : UserRecord
  bundle : Bundle
  txs : List LedgerEntry
  deriving DecidableEq, Repr

/-- Rejections of the status route. -/
inductive StatusErr
  | invalidStatus
  | sameStatus
  deriving DecidableEq, Repr

/-- The status values the route accepts (orders.js line 761). -/
def validStatuses : List OrderStatus :=
  [.pending, .processing, .completed, .failed, .refunded]

/-- PUT /api/orders/:id/status (src/Server/orders/orders.js lines 750-914):
validate the status, reject a transition to the same status, credit
order.price to the wallet when transitioning to refunded, set the new
status, and stamp completedAt when transitioning to completed.  The route
reads neither the Bundle nor the Transaction model: it never confirms or
releases a stock reservation and never creates a ledger entry; `now` is the
clock value used for completedAt.  Editor attribution fields and SMS
notification are omitted. -/
def updateOrderStatus (s : OrderStore) (status : OrderStatus) (now : Nat) :
    Except StatusErr OrderStore :=
  if status ∉ validStatuses then .error .invalidStatus
  else if s.order.status = status then .error .sameStatus
  else
    let user :=
      if status = .refunded ∧ s.order.status ≠ .refunded then
        { s.user with balance := s.user.balance + s.order.price }
      else s.user
    let order := { s.order with
      status := status,
      completedAt :=
        if status = .completed ∧ s.order.status ≠ .completed then some now
        else s.order.completedAt }
    .ok { s with order := order, user := user }

/-- C6, amended: an Editor transition from pending or processing to refunded
credits order.price to the user's wallet exactly once, but no Transaction of
any type is recorded for the refund (the Transactions collection is
untouched), so no refund balanceBefore/balanceAfter snapshot exists. -/
theorem refund_credits_wallet_once (s : OrderStore) (now : Nat)
    (h : s.order.status = .pending ∨ s.order.status = .processing) :
    ∃ s', updateOrderStatus s .refunded now = .ok s'
      ∧ s'.user.balance = s.user.balance + s.order.price
      ∧ s'.order.status = .refunded
      ∧ s'.txs = s.txs
      ∧ s'.bundle = s.bundle := by
  have hne : s.order.status ≠ .refunded := by rcases h with h | h <;> simp [h]
  refine ⟨⟨{ s.order with status := .refunded },
           { s.user with balance := s.user.balance + s.order.price },
           s.bundle, s.txs⟩, ?_, rfl, rfl, rfl, rfl⟩
  simp [updateOrderStatus, validStatuses, hne]

/-- Closed instance of refund_credits_wallet_once. -/
theorem refund_credits_wallet_once_witness :
    ∃ s', updateOrderStatus
        ⟨⟨3, 10, .pending, none⟩, ⟨1, 0, []⟩,
         ⟨10, true, true, ⟨5, 5, 1, 0, 10⟩, ⟨false, true, false⟩⟩, []⟩
        .refunded 99 = .ok s'
      ∧ s'.user.balance = (0 : Int) + 10
      ∧ s'.order.status = .refunded
      ∧ s'.txs = []
      ∧ s'.bundle = ⟨10, true, true, ⟨5, 5, 1, 0, 10⟩, ⟨false, true, false⟩⟩ :=
  refund_credits_wallet_once
    ⟨⟨3, 10, .pending, none⟩, ⟨1, 0, []⟩,
     ⟨10, true, true, ⟨5, 5, 1, 0, 10⟩, ⟨false, true, false⟩⟩, []⟩
    99 (Or.inl rfl)

/-- C6, counterexample to the claim as stated: refunding a pending order of
price 10 raises the balance from 0 to 10 but leaves the Transactions
collection empty, so no Transaction of type refund or credit is recorded. -/
theorem refund_no_transaction_recorded :
    updateOrderStatus
        ⟨⟨3, 10, .pending, none⟩, ⟨1, 0, []⟩,
         ⟨10, true, true, ⟨5, 5, 1, 0, 10⟩, ⟨false, true, false⟩⟩, []⟩
        .refunded 99
      = .ok ⟨⟨3, 10, .refunded, none⟩, ⟨1, 10, []⟩,
             ⟨10, true, true, ⟨5, 5, 1, 0, 10⟩, ⟨false, true, false⟩⟩, []⟩ := by
  rfl

/-- C9: at the failing input (an Editor completing a pending order whose
bundle holds 1 reserved and 0 sold units), the route sets the status and
completedAt and leaves the wallet untouched, but the bundle is unchanged:
the reservation is not confirmed (reserved stays 1, sold stays 0).
confirmReservation is never invoked by any route in the repository. -/
theorem editor_complete_does_not_confirm_stock (s : OrderStore) (now : Nat)
    (h : s.order.status = .pending ∨ s.order.status = .processing) :
    ∃ s', updateOrderStatus s .completed now = .ok s'
      ∧ s'.order.status = .completed
      ∧ s'.order.completedAt = some now
      ∧ s'.user = s.user
      ∧ s'.bundle = s.bundle
      ∧ s'.txs = s.txs := by
  have hne : s.order.status ≠ .completed := by rcases h with h | h <;> simp [h]
  have hnr : ¬ (OrderStatus.completed = .refunded ∧ s.order.status ≠ .refunded) := by
    simp
  refine ⟨⟨{ s.order with status := .completed, completedAt := some now },
           s.user, s.bundle, s.txs⟩, ?_, rfl, rfl, rfl, rfl, rfl⟩
  simp [updateOrderStatus, validStatuses, hne, hnr]

/-- Closed instance of editor_complete_does_not_confirm_stock:
the bundle keeps reserved = 1, sold = 0 after completion. -/
theorem editor_complete_does_not_confirm_stock_witness :
    ∃ s', updateOrderStatus
        ⟨⟨3, 10, .pending, none⟩, ⟨1, 50, []⟩,
         ⟨10, true, true, ⟨5, 5, 1, 0, 10⟩, ⟨false, true, false⟩⟩, []⟩
        .completed 99 = .ok s'
      ∧ s'.order.status = .completed
      ∧ s'.order.completedAt = some 99
      ∧ s'.user = ⟨1, 50, []⟩
      ∧ s'.bundle = ⟨10, true, true, ⟨5, 5, 1, 0, 10⟩, ⟨false, true, false⟩⟩
      ∧ s'.txs = [] :=
  editor_complete_does_not_confirm_stock
    ⟨⟨3, 10, .pending, none⟩, ⟨1, 50, []⟩,
     ⟨10, true, true, ⟨5, 5, 1, 0, 10⟩, ⟨false, true, false⟩⟩, []⟩
    99 (Or.inl rfl)

/-- POST /api/orders/bulk-purchase (src/Server/orders/orders.js lines
1658-1812), focused on its wallet effect: after validating only that the
orders array is non-empty and at most 100 entries, every order document is
created pending, and when at least one order was created the sum of the
submitted prices is debited from the wallet in one purchase Transaction.
No check that the wallet balance covers the total is performed anywhere in
the route. -/
def bulkPurchase (user : UserRecord) (txs : List LedgerEntry)
    (prices : List Int) : Except String (UserRecord × List LedgerEntry) :=
  if prices.isEmpty then
    .error "Invalid request format. Network key and orders array are required."
  else if 100 < prices.length then
    .error "Maximum of 100 orders allowed in a single bulk request"
  else
    let totalAmount := prices.sum
    if 0 < prices.length then
      .ok ({ user with balance := user.balance - totalAmount },
           txs ++ [⟨.purchase, totalAmount, user.balance,
                    user.balance - totalAmount⟩])
    else .ok (user, txs)

/-- C4: at the failing input — a user with balance 5 submitting one bulk
order priced 10 — the bulk-purchase route succeeds and commits a wallet
balance of -5, so the exposed operations do not keep the balance ≥ 0. -/
theorem bulk_purchase_negative_balance :
    bulkPurchase ⟨1, 5, []⟩ [] [10]
      = .ok (⟨1, -5, []⟩, [⟨.purchase, 10, 5, -5⟩])
    ∧ (-5 : Int) < 0 := by
  exact ⟨rfl, by decide⟩

/-- An API order document (src/unnamed/part_003 lines 193-214), restricted
to the fields the placement flow sets. -/
structure ApiOrderRec where
  price : Int
  status : OrderStatus
  quantity : Int
  deriving DecidableEq, Repr

/-- Store for the API order-placement route: the resolved bundle, the
authenticated user, and the Orders and Transactions collections. -/
structure PlaceStore where
  bundle : Bundle
  user : UserRecord
  orders : List ApiOrderRec
  txs : List LedgerEntry
  deriving DecidableEq, Repr

/-- Outcomes of the API order-placement route. -/
inductive PlaceResult
  | ok
  | outOfStock
  | insufficientStock
  | insufficientBalance
  | providerRejected
  deriving DecidableEq, Repr

/-- POST /api/v1/orders/place (src/unnamed/part_003 lines 28-446): check the
bundle's stock status, the available units, and the wallet balance; reserve
the stock inside the session; call the fulfillment provider when the bundle
type uses the API (`apiEnabled`); on provider rejection or connection error
(`providerOk = false`) release the reservation on the session draft and
abort the session, so nothing is persisted; otherwise save the order, the
purchase Transaction (amount is the negated total price in this route) and
the debited wallet, and commit.  Role pricing is collapsed to bundle.price;
the transaction id pushed onto wallet.transactions is represented by the
appended ledger entry. -/
def placeApiOrder (s : PlaceStore) (quantity : Int)
    (apiEnabled providerOk : Bool) : PlaceResult × PlaceStore :=
  if s.bundle.stockStatus.isOutOfStock ∨ s.bundle.isInStock = false then
    (.outOfStock, s)
  else if s.bundle.stockUnits.available < quantity then
    (.insufficientStock, s)
  else
    let totalPrice := s.bundle.price * quantity
    if s.user.balance < totalPrice then
      (.insufficientBalance, s)
    else
      match reserveStock s.bundle quantity with
      | none => (.insufficientStock, s)
      | some b1 =>
        if apiEnabled ∧ providerOk = false then
          -- releaseReservation b1 quantity runs on the session draft and is
          -- then discarded by abortTransaction: the committed store is s
          (.providerRejected, s)
        else
          (.ok,
           { bundle := b1,
             user := { s.user with balance := s.user.balance - totalPrice },
             orders := s.orders ++ [⟨totalPrice, .pending, quantity⟩],
             txs := s.txs ++ [⟨.purchase, -totalPrice, s.user.balance,
                              s.user.balance - totalPrice⟩] })

/-- C5: when the fulfillment provider rejects the request or the call fails
during API order placement, the committed store equals the prior store: no
Order and no Transaction is persisted, the wallet is not debited, and the
stock reservation is fully released (available restored to its prior
value); the route never returns success in that case. -/
theorem api_place_order_provider_reject_rollback (s : PlaceStore)
    (quantity : Int) :
    (placeApiOrder s quantity true false).2 = s
    ∧ (placeApiOrder s quantity true false).1 ≠ .ok
    ∧ (placeApiOrder s quantity true false).2.orders = s.orders
    ∧ (placeApiOrder s quantity true false).2.txs = s.txs
    ∧ (placeApiOrder s quantity true false).2.user.balance = s.user.balance
    ∧ (placeApiOrder s quantity true false).2.bundle.stockUnits.available
        = s.bundle.stockUnits.available := by
  have hstore : (placeApiOrder s quantity true false).2 = s := by
    by_cases h1 : s.bundle.stockStatus.isOutOfStock ∨ s.bundle.isInStock = false
    · simp [placeApiOrder, h1]
    · by_cases h2 : s.bundle.stockUnits.available < quantity
      · simp [placeApiOrder, h1, h2]
      · by_cases h3 : s.user.balance < s.bundle.price * quantity
        · simp [placeApiOrder, h1, h2, h3]
        · simp [placeApiOrder, h1, h2, h3, reserveStock]
  have hres : (placeApiOrder s quantity true false).1 ≠ .ok := by
    by_cases h1 : s.bundle.stockStatus.isOutOfStock ∨ s.bundle.isInStock = false
    · simp [placeApiOrder, h1]
    · by_cases h2 : s.bundle.stockUnits.available < quantity
      · simp [placeApiOrder, h1, h2]
      · by_cases h3 : s.user.balance < s.bundle.price * quantity
        · simp [placeApiOrder, h1, h2, h3]
        · simp [placeApiOrder, h1, h2, h3, reserveStock]
  exact ⟨hstore, hres, by rw [hstore], by rw [hstore], by rw [hstore],
    by rw [hstore]⟩

end Iget
